import Mathlib

/-!
Verification of the vui box-layout and event-routing core.

The definitions below are shallow embeddings of the Python sources:
  * `src/vui/observable.py` — the reactive cell (`Observable`),
  * `src/vui/view.py`       — per-axis alignment (`_calc_coords`) and the
    sizing-resolution state machine of a `View`,
  * `src/vui/pane.py`       — the half-open hit test (`Pane.contains`),
  * `src/vui/layout.py`     — the horizontal / vertical stack partition,
    the layered layout routing and the stack pointer-routing cache.
Python floats are modelled by rationals; a Python `ValueError` raised by
`max()` on an empty sequence is modelled by `Option`.
-/

namespace Vui

/-- A rectangle `(x0, y0, x1, y1)`: bottom-left and top-right corner,
as the `Coords` tuples of `src/vui/pane.py`. -/
structure Rect where
  x0 : ℚ
  y0 : ℚ
  x1 : ℚ
  y1 : ℚ
deriving DecidableEq, Repr

/-- `Pane.contains` (src/vui/pane.py:128): half-open test against the
active box `coords`. -/
def Rect.containsPt (r : Rect) (x y : ℚ) : Bool :=
  (r.x0 ≤ x && x < r.x1) && (r.y0 ≤ y && y < r.y1)

/-- The four per-axis alignment values. `left`/`center`/`right`/`fill`
stand for the enum values 1–4 shared by `HAlign` (LEFT, CENTER, RIGHT,
FILL) and `VAlign` (BOTTOM, CENTER, TOP, FILL) in `src/vui/view.py`. -/
inductive Alignment where
  | left
  | center
  | right
  | fill
deriving DecidableEq, Repr

/-- `_calc_coords` (src/vui/view.py:37): places an interval of length
`dim` inside `[lo, hi]` according to the alignment. -/
def calcCoords (lo hi dim : ℚ) (align : Alignment) : ℚ × ℚ :=
  let extra := hi - lo - dim
  if align = .fill ∨ extra ≤ 0 then (lo, hi)
  else
    match align with
    | .left => (lo, lo + dim)
    | .center => (lo + extra / 2, lo + extra / 2 + dim)
    | .right => (hi - dim, hi)
    | .fill => (lo, hi)

/-- `Observable` (src/vui/observable.py): one value plus an ordered list of
change listeners. Listeners are modelled by opaque identifiers of type `κ`;
a call of a listener is recorded as a pair (listener, argument). -/
structure Obs (κ α : Type) where
  value : α
  observers : List κ

/-- `Observable.set` (src/vui/observable.py:33): updates the value and calls
every observer, in registration order, with the new value — but only when
the new value differs from the current one. Returns the updated cell
together with the list of listener calls it performed. -/
def Obs.set [DecidableEq α] (o : Obs κ α) (v : α) : Obs κ α × List (κ × α) :=
  if o.value ≠ v then
    ({ o with value := v }, o.observers.map fun k => (k, v))
  else
    (o, [])

/-- `Observable.observe` (src/vui/observable.py:44): appends a listener. -/
def Obs.observe (o : Obs κ α) (k : κ) : Obs κ α :=
  { o with observers := o.observers ++ [k] }

/-- `View._calc_width` / `View._calc_height` (src/vui/view.py:201, 212):
the resolved derived size: 0 when hidden, else the min size when set,
else the content size when set, else 0. -/
def calcDerived (hidden : Bool) (minSize contentSize : Option ℚ) : ℚ :=
  if hidden then 0
  else
    match minSize with
    | none =>
      match contentSize with
      | none => 0
      | some c => c
    | some m => m

/-- The sizing-relevant state of a `View` (src/vui/view.py): the stored
observable values of `min_*`, `content_*`, `hidden` and the two resolved
outputs `derived_*`. -/
structure ViewState where
  minWidth : Option ℚ
  minHeight : Option ℚ
  contentWidth : Option ℚ
  contentHeight : Option ℚ
  hidden : Bool
  derivedWidth : ℚ
  derivedHeight : ℚ
deriving DecidableEq, Repr

/-- The externally triggerable sizing updates of a `View`: assignments to
the `min_*`, `content_*` and `hidden` attributes. -/
inductive ViewOp where
  | setMinWidth (v : Option ℚ)
  | setMinHeight (v : Option ℚ)
  | setContentWidth (v : Option ℚ)
  | setContentHeight (v : Option ℚ)
  | setHidden (b : Bool)
deriving DecidableEq, Repr

/-- One attribute assignment on a `View`. Each observable fires its
listeners only when the value changes (src/vui/observable.py:39); the
listeners registered in `View.__init__` (src/vui/view.py:119, 139) re-run
`_calc_width` / `_calc_height`, which store a fresh `derived_*`. -/
def ViewState.applyOp (s : ViewState) : ViewOp → ViewState
  | .setMinWidth v =>
    if v = s.minWidth then s
    else { s with minWidth := v,
                  derivedWidth := calcDerived s.hidden v s.contentWidth }
  | .setMinHeight v =>
    if v = s.minHeight then s
    else { s with minHeight := v,
                  derivedHeight := calcDerived s.hidden v s.contentHeight }
  | .setContentWidth v =>
    if v = s.contentWidth then s
    else { s with contentWidth := v,
                  derivedWidth := calcDerived s.hidden s.minWidth v }
  | .setContentHeight v =>
    if v = s.contentHeight then s
    else { s with contentHeight := v,
                  derivedHeight := calcDerived s.hidden s.minHeight v }
  | .setHidden b =>
    if b = s.hidden then s
    else { s with hidden := b,
                  derivedWidth := calcDerived b s.minWidth s.contentWidth,
                  derivedHeight := calcDerived b s.minHeight s.contentHeight }

/-- `View.__init__` (src/vui/view.py:102): `content_*` start at `None`,
`derived_*` are resolved by the initial `_calc_width()` / `_calc_height()`
calls. -/
def ViewState.init (minW minH : Option ℚ) (hidden : Bool) : ViewState :=
  { minWidth := minW
    minHeight := minH
    contentWidth := none
    contentHeight := none
    hidden := hidden
    derivedWidth := calcDerived hidden minW none
    derivedHeight := calcDerived hidden minH none }

/-- The resolution invariant: the stored derived sizes always equal the
four-tier resolution of the currently stored inputs. -/
def ViewState.resolved (s : ViewState) : Prop :=
  s.derivedWidth = calcDerived s.hidden s.minWidth s.contentWidth ∧
  s.derivedHeight = calcDerived s.hidden s.minHeight s.contentHeight

/-- The attributes of a stack child that the layout algorithms read
(src/vui/layout.py): resolved sizes, flex flags and visibility. -/
structure ChildView where
  derivedWidth : ℚ
  derivedHeight : ℚ
  flexWidth : Bool
  flexHeight : Bool
  hidden : Bool
deriving DecidableEq, Repr

/-- Python's `max` over a sequence of rationals; `none` models the
`ValueError` raised on an empty sequence. -/
def listMax : List ℚ → Option ℚ
  | [] => none
  | x :: xs => some (xs.foldl max x)

/-- `HStackLayout._calc_content_width` (src/vui/layout.py:260): sum of the
children's derived widths. -/
def hstackContentWidth (cs : List ChildView) : ℚ :=
  (cs.map (·.derivedWidth)).sum

/-- `HStackLayout._calc_content_height` (src/vui/layout.py:263): maximum of
the children's derived heights; raises on an empty children list. -/
def hstackContentHeight (cs : List ChildView) : Option ℚ :=
  listMax (cs.map (·.derivedHeight))

/-- `VStackLayout._calc_content_width` (src/vui/layout.py:290). -/
def vstackContentWidth (cs : List ChildView) : Option ℚ :=
  listMax (cs.map (·.derivedWidth))

/-- `VStackLayout._calc_content_height` (src/vui/layout.py:293). -/
def vstackContentHeight (cs : List ChildView) : ℚ :=
  (cs.map (·.derivedHeight)).sum

/-- `sum(child.flex_width for child in self.children if not child.hidden)`
(src/vui/layout.py:270): the number of visible flex-width children. -/
def countFlexWidth (cs : List ChildView) : ℕ :=
  (cs.filter fun c => !c.hidden && c.flexWidth).length

/-- As `countFlexWidth`, for the vertical axis (src/vui/layout.py:300). -/
def countFlexHeight (cs : List ChildView) : ℕ :=
  (cs.filter fun c => !c.hidden && c.flexHeight).length

/-- The child loop of `HStackLayout._update` (src/vui/layout.py:274):
walks the children left to right with cursor `x`, skipping hidden ones;
a non-flex child (or any child when `extra ≤ 0`) ends at
`min (x + derived_width) x1`, a flex child at `x + derived_width + extra`.
Returns each child's new `alloc_coords` (`none` for a skipped child). -/
def hstackPlaceFrom (x1 y0 y1 extra : ℚ) : ℚ → List ChildView → List (Option Rect)
  | _, [] => []
  | x, c :: cs =>
    if c.hidden then none :: hstackPlaceFrom x1 y0 y1 extra x cs
    else
      let nextX := if extra ≤ 0 ∨ c.flexWidth = false then min (x + c.derivedWidth) x1
                   else x + c.derivedWidth + extra
      some ⟨x, y0, nextX, y1⟩ :: hstackPlaceFrom x1 y0 y1 extra nextX cs

/-- `HStackLayout._update` (src/vui/layout.py:266): partitions the pane's
span among the children. `derivedWidth` is the stack's own resolved width
read at line 272. -/
def hstackUpdate (coords : Rect) (derivedWidth : ℚ) (cs : List ChildView) :
    List (Option Rect) :=
  let width := coords.x1 - coords.x0
  let extra := (width - derivedWidth) / ((max (countFlexWidth cs) 1 : ℕ) : ℚ)
  hstackPlaceFrom coords.x1 coords.y0 coords.y1 extra coords.x0 cs

/-- The child loop of `VStackLayout._update` (src/vui/layout.py:304):
walks the children top to bottom with cursor `y` starting at `y1`. -/
def vstackPlaceFrom (y0 x0 x1 extra : ℚ) : ℚ → List ChildView → List (Option Rect)
  | _, [] => []
  | y, c :: cs =>
    if c.hidden then none :: vstackPlaceFrom y0 x0 x1 extra y cs
    else
      let nextY := if extra ≤ 0 ∨ c.flexHeight = false then max (y - c.derivedHeight) y0
                   else y - c.derivedHeight - extra
      some ⟨x0, nextY, x1, y⟩ :: vstackPlaceFrom y0 x0 x1 extra nextY cs

/-- `VStackLayout._update` (src/vui/layout.py:296). -/
def vstackUpdate (coords : Rect) (derivedHeight : ℚ) (cs : List ChildView) :
    List (Option Rect) :=
  let height := coords.y1 - coords.y0
  let extra := (height - derivedHeight) / ((max (countFlexHeight cs) 1 : ℕ) : ℚ)
  vstackPlaceFrom coords.y0 coords.x0 coords.x1 extra coords.y1 cs

/-- Follows the claim text of C1 (spec §4.4, §8): visible children are
placed contiguously left to right from cursor `x`; a flex child's width is
its derived width plus `extraPerFlex`, a non-flex child's width is exactly
its derived width. -/
def specFlexPlaceFrom (y0 y1 extraPerFlex : ℚ) : ℚ → List ChildView → List (Option Rect)
  | _, [] => []
  | x, c :: cs =>
    if c.hidden then none :: specFlexPlaceFrom y0 y1 extraPerFlex x cs
    else
      let w := c.derivedWidth + (if c.flexWidth then extraPerFlex else 0)
      some ⟨x, y0, x + w, y1⟩ :: specFlexPlaceFrom y0 y1 extraPerFlex (x + w) cs

/-- Follows the claim text of C4 (spec §7, §8): every visible child in
order at its derived width, its right edge clamped so it never exceeds the
allocated span end `x1`. -/
def specClampPlaceFrom (x1 y0 y1 : ℚ) : ℚ → List ChildView → List (Option Rect)
  | _, [] => []
  | x, c :: cs =>
    if c.hidden then none :: specClampPlaceFrom x1 y0 y1 x cs
    else
      let e := min (x + c.derivedWidth) x1
      some ⟨x, y0, e, y1⟩ :: specClampPlaceFrom x1 y0 y1 e cs

/-- The total width the C1 placement hands out from the cursor on: zero per
hidden child, derived width plus flex share per visible child. -/
def specFlexRest (extraPerFlex : ℚ) (cs : List ChildView) : ℚ :=
  (cs.map fun c =>
    if c.hidden then 0
    else c.derivedWidth + (if c.flexWidth then extraPerFlex else 0)).sum

/-- Axis swap on a child: the width attributes trade places with the height
attributes. -/
def ChildView.swapAxes (c : ChildView) : ChildView :=
  ⟨c.derivedHeight, c.derivedWidth, c.flexHeight, c.flexWidth, c.hidden⟩

/-- Reversible coordinate change sending the vertical axis (walked downward
from `y1`) to a horizontal axis walked upward: `u = -y`, with the old
horizontal axis becoming the cross axis. -/
def Rect.toHAxis (r : Rect) : Rect :=
  ⟨-r.y1, r.x0, -r.y0, r.x1⟩

/-- Inverse direction of `Rect.toHAxis` on produced boxes. -/
def Rect.ofHAxis (r : Rect) : Rect :=
  ⟨r.y0, -r.x1, r.y1, -r.x0⟩

/-- A layered-layout child as the input routing sees it: its visibility and
the active box of its pane. -/
structure LayerChild where
  hidden : Bool
  box : Rect
deriving DecidableEq, Repr

/-- `LayersLayout._top_pane` (src/vui/layout.py:362): scans the children in
reverse order and returns the first non-hidden one, i.e. the index of the
last non-hidden child. -/
def layersTopIdx : List LayerChild → Option ℕ
  | [] => none
  | c :: cs =>
    match layersTopIdx cs with
    | some i => some (i + 1)
    | none => if c.hidden then none else some 0

/-- `LayersLayout.on_mouse_press` (src/vui/layout.py:377): the press is
dispatched to the pane returned by `_top_pane()`; the press coordinates do
not influence which child pane is chosen. -/
def layersPressTarget (cs : List LayerChild) (_px _py : ℚ) : Option ℕ :=
  layersTopIdx cs

/-- The `for child in self.children` loop of `_find_child_pane`
(src/vui/layout.py:182): the index of the first child whose active box
contains the point. -/
def scanChildren : List Rect → ℚ → ℚ → Option ℕ
  | [], _, _ => none
  | b :: bs, x, y =>
    if b.containsPt x y then some 0
    else (scanChildren bs x y).map (· + 1)

/-- `StackLayout._find_child_pane` (src/vui/layout.py:177): the cached
mouseover pane is returned while it contains the point, otherwise the
children are scanned in list order for the first whose active box contains
the point. Panes are identified by their index in the children list; the
cache always references one of the child panes. -/
def findChildPane (boxes : List Rect) (cache : Option ℕ) (x y : ℚ) : Option ℕ :=
  match cache with
  | some i =>
    match boxes.get? i with
    | some b =>
      if b.containsPt x y then some i
      else scanChildren boxes x y
    | none => scanChildren boxes x y
  | none => scanChildren boxes x y

/-- `StackLayout._observe_mouse_pos` (src/vui/layout.py:223): updates the
`_mouseover_pane` cache and the child panes' `mouse_pos` values. Returns
the new cache and the list of `mouse_pos` assignments performed, in
order. -/
def observeMousePos (boxes : List Rect) (cache : Option ℕ)
    (pos : Option (ℚ × ℚ)) : Option ℕ × List (ℕ × Option (ℚ × ℚ)) :=
  match pos with
  | none =>
    match cache with
    | some i => (cache, [(i, none)])
    | none => (cache, [])
  | some (x, y) =>
    match cache with
    | some i =>
      if (boxes.get? i).elim false (fun b => b.containsPt x y) then
        (some i, [(i, some (x, y))])
      else
        match findChildPane boxes (some i) x y with
        | some j => (some j, [(i, none), (j, some (x, y))])
        | none => (none, [(i, none)])
    | none =>
      match findChildPane boxes none x y with
      | some j => (some j, [(j, some (x, y))])
      | none => (none, [])

/-- The pointer-routing state of a stack layout (src/vui/layout.py:130):
the `_mouseover_pane` cache, the `_dragging_pane` capture and the
`_dragging_button` mask. -/
structure DragState where
  mouseover : Option ℕ
  dragging : Option ℕ
  draggingButton : ℕ
deriving DecidableEq, Repr

/-- The pointer events a stack layout reacts to; `motion` carries the new
`mouse_pos` value observed through the pane's observable. -/
inductive MouseEvent where
  | press (x y : ℚ) (button : ℕ)
  | drag (x y : ℚ) (buttons : ℕ)
  | release (x y : ℚ) (button : ℕ)
  | motion (pos : Option (ℚ × ℚ))
deriving DecidableEq, Repr

/-- One pointer event on a stack layout (`on_mouse_press`, `on_mouse_drag`,
`on_mouse_release`, src/vui/layout.py:193–215, and `_observe_mouse_pos`).
Returns the new state and the index of the child pane the event was
dispatched to, if any. -/
def stackStep (boxes : List Rect) (s : DragState) :
    MouseEvent → DragState × Option ℕ
  | .press x y _ => (s, findChildPane boxes s.mouseover x y)
  | .drag x y buttons =>
    let s1 := if s.dragging = none then
        { s with draggingButton := buttons,
                 dragging := findChildPane boxes s.mouseover x y }
      else s
    (s1, s1.dragging)
  | .release x y b =>
    let s1 := if b &&& s.draggingButton ≠ 0 then
        { s with dragging := none, draggingButton := 0 }
      else s
    (s1, findChildPane boxes s.mouseover x y)
  | .motion pos =>
    ({ s with mouseover := (observeMousePos boxes s.mouseover pos).1 }, none)

/-- Folds a list of pointer events through `stackStep`. -/
def stackRun (boxes : List Rect) (s : DragState) (evs : List MouseEvent) :
    DragState :=
  evs.foldl (fun t e => (stackStep boxes t e).1) s

/-- The dispatch targets of the drag events in `evs`, in order. -/
def stackDragDeliveries (boxes : List Rect) : DragState → List MouseEvent → List (Option ℕ)
  | _, [] => []
  | s, e :: evs =>
    (match e with
     | .drag _ _ _ => [(stackStep boxes s e).2]
     | _ => []) ++ stackDragDeliveries boxes (stackStep boxes s e).1 evs

/-- `StackLayout.__init__` for a horizontal stack (src/vui/layout.py:139
with `HStackLayout._calc_content_*`): the content width (a sum) and then
the content height (a `max`, raising on an empty children list). -/
def hstackInitContent (cs : List ChildView) : Option (ℚ × ℚ) :=
  match hstackContentHeight cs with
  | none => none
  | some h => some (hstackContentWidth cs, h)

/-- `StackLayout.__init__` for a vertical stack: the content width is a
`max`, raising on an empty children list. -/
def vstackInitContent (cs : List ChildView) : Option (ℚ × ℚ) :=
  match vstackContentWidth cs with
  | none => none
  | some w => some (w, vstackContentHeight cs)

/-- `LayersLayout.__init__` (src/vui/layout.py:317): both
`_update_content_width` and `_update_content_height` take a `max` over the
children, raising on an empty children list. -/
def layersInitContent (cs : List ChildView) : Option (ℚ × ℚ) :=
  match listMax (cs.map (·.derivedWidth)), listMax (cs.map (·.derivedHeight)) with
  | some w, some h => some (w, h)
  | _, _ => none

/-- Child C1 of the spec's layered scenario (§8): fills the pane
`(100,150)-(500,550)` (halign = valign = FILL), so its active box is the
whole pane. -/
def layersChildC1 : LayerChild :=
  ⟨false,
    ⟨(calcCoords 100 500 (calcDerived false (some 200) none) .fill).1,
     (calcCoords 150 550 (calcDerived false (some 100) none) .fill).1,
     (calcCoords 100 500 (calcDerived false (some 200) none) .fill).2,
     (calcCoords 150 550 (calcDerived false (some 100) none) .fill).2⟩⟩

/-- Child C2 of the spec's layered scenario (§8): `min_width=100`,
`min_height=150`, centered in the pane `(100,150)-(500,550)`, so its
active box is `(250,275)-(350,425)`. -/
def layersChildC2 : LayerChild :=
  ⟨false,
    ⟨(calcCoords 100 500 (calcDerived false (some 100) none) .center).1,
     (calcCoords 150 550 (calcDerived false (some 150) none) .center).1,
     (calcCoords 100 500 (calcDerived false (some 100) none) .center).2,
     (calcCoords 150 550 (calcDerived false (some 150) none) .center).2⟩⟩

/-- Child A of the spec's stack scenarios (§8): `min_width=200` (flex),
`min_height=100` (flex), visible; its derived sizes resolved by
`View._calc_width` / `_calc_height`. -/
def scenarioChildA : ChildView :=
  ⟨calcDerived false (some 200) none, calcDerived false (some 100) none,
    true, true, false⟩

/-- Child B of the spec's stack scenarios (§8): `min_width=100` (fixed),
`min_height=150` (fixed), visible. -/
def scenarioChildB : ChildView :=
  ⟨calcDerived false (some 100) none, calcDerived false (some 150) none,
    false, false, false⟩

end Vui

theorem Vui.ViewState.applyOp_resolved {s : Vui.ViewState} (h : s.resolved)
    (op : Vui.ViewOp) : (s.applyOp op).resolved := by
  obtain ⟨hw, hh⟩ := h
  cases op <;> simp only [Vui.ViewState.applyOp] <;> split <;>
    simp_all [Vui.ViewState.resolved]

theorem Vui.ViewState.foldl_resolved :
    ∀ (ops : List Vui.ViewOp) (s : Vui.ViewState), s.resolved →
      (ops.foldl Vui.ViewState.applyOp s).resolved
  | [], _, h => h
  | op :: ops, s, h =>
    Vui.ViewState.foldl_resolved ops (s.applyOp op)
      (Vui.ViewState.applyOp_resolved h op)

theorem Vui.ViewState.init_resolved (minW minH : Option ℚ) (hidden : Bool) :
    (Vui.ViewState.init minW minH hidden).resolved :=
  ⟨rfl, rfl⟩

/-- C3: after constructing a view and applying any sequence of `min_*`,
`content_*` and `hidden` assignments, the stored derived width (resp.
height) equals 0 when hidden is true, otherwise the min size when set
(independent of assignment order), otherwise the content size when set,
otherwise 0; `hidden := true` forces both derived sizes to 0 and a
subsequent `hidden := false` restores the resolution of the still-stored
min/content values. -/
theorem claim_C3_sizing_priority (minW minH : Option ℚ) (hidden : Bool)
    (ops : List Vui.ViewOp) :
    (ops.foldl Vui.ViewState.applyOp
        (Vui.ViewState.init minW minH hidden)).derivedWidth =
      (if (ops.foldl Vui.ViewState.applyOp
            (Vui.ViewState.init minW minH hidden)).hidden then 0
       else
         match (ops.foldl Vui.ViewState.applyOp
             (Vui.ViewState.init minW minH hidden)).minWidth with
         | none =>
           match (ops.foldl Vui.ViewState.applyOp
               (Vui.ViewState.init minW minH hidden)).contentWidth with
           | none => 0
           | some c => c
         | some m => m) ∧
    (ops.foldl Vui.ViewState.applyOp
        (Vui.ViewState.init minW minH hidden)).derivedHeight =
      (if (ops.foldl Vui.ViewState.applyOp
            (Vui.ViewState.init minW minH hidden)).hidden then 0
       else
         match (ops.foldl Vui.ViewState.applyOp
             (Vui.ViewState.init minW minH hidden)).minHeight with
         | none =>
           match (ops.foldl Vui.ViewState.applyOp
               (Vui.ViewState.init minW minH hidden)).contentHeight with
           | none => 0
           | some c => c
         | some m => m) ∧
    ((ops.foldl Vui.ViewState.applyOp
        (Vui.ViewState.init minW minH hidden)).applyOp
          (.setHidden true)).derivedWidth = 0 ∧
    ((ops.foldl Vui.ViewState.applyOp
        (Vui.ViewState.init minW minH hidden)).applyOp
          (.setHidden true)).derivedHeight = 0 ∧
    (((ops.foldl Vui.ViewState.applyOp
        (Vui.ViewState.init minW minH hidden)).applyOp
          (.setHidden true)).applyOp (.setHidden false)).derivedWidth =
      Vui.calcDerived false
        (ops.foldl Vui.ViewState.applyOp
          (Vui.ViewState.init minW minH hidden)).minWidth
        (ops.foldl Vui.ViewState.applyOp
          (Vui.ViewState.init minW minH hidden)).contentWidth ∧
    (((ops.foldl Vui.ViewState.applyOp
        (Vui.ViewState.init minW minH hidden)).applyOp
          (.setHidden true)).applyOp (.setHidden false)).derivedHeight =
      Vui.calcDerived false
        (ops.foldl Vui.ViewState.applyOp
          (Vui.ViewState.init minW minH hidden)).minHeight
        (ops.foldl Vui.ViewState.applyOp
          (Vui.ViewState.init minW minH hidden)).contentHeight := by
  set s := ops.foldl Vui.ViewState.applyOp (Vui.ViewState.init minW minH hidden)
    with hs
  have hres : s.resolved :=
    Vui.ViewState.foldl_resolved ops _
      (Vui.ViewState.init_resolved minW minH hidden)
  obtain ⟨hw, hh⟩ := hres
  have hres1 : (s.applyOp (.setHidden true)).resolved :=
    Vui.ViewState.applyOp_resolved ⟨hw, hh⟩ _
  have hres2 : ((s.applyOp (.setHidden true)).applyOp
      (.setHidden false)).resolved :=
    Vui.ViewState.applyOp_resolved hres1 _
  have hhid1 : (s.applyOp (.setHidden true)).hidden = true := by
    simp only [Vui.ViewState.applyOp]
    split <;> simp_all
  have hkeep : (s.applyOp (.setHidden true)).minWidth = s.minWidth ∧
      (s.applyOp (.setHidden true)).minHeight = s.minHeight ∧
      (s.applyOp (.setHidden true)).contentWidth = s.contentWidth ∧
      (s.applyOp (.setHidden true)).contentHeight = s.contentHeight := by
    simp only [Vui.ViewState.applyOp]
    split <;> simp_all
  have hhid2 : ((s.applyOp (.setHidden true)).applyOp
      (.setHidden false)).hidden = false := by
    simp only [Vui.ViewState.applyOp]
    split <;> simp_all
  have hkeep2 : ((s.applyOp (.setHidden true)).applyOp
        (.setHidden false)).minWidth = s.minWidth ∧
      ((s.applyOp (.setHidden true)).applyOp
        (.setHidden false)).minHeight = s.minHeight ∧
      ((s.applyOp (.setHidden true)).applyOp
        (.setHidden false)).contentWidth = s.contentWidth ∧
      ((s.applyOp (.setHidden true)).applyOp
        (.setHidden false)).contentHeight = s.contentHeight := by
    simp only [Vui.ViewState.applyOp]
    split <;> simp_all
  refine ⟨?_, ?_, ?_, ?_, ?_, ?_⟩
  · simpa [Vui.calcDerived] using hw
  · simpa [Vui.calcDerived] using hh
  · have := hres1.1
    rw [this, hhid1]
    simp [Vui.calcDerived]
  · have := hres1.2
    rw [this, hhid1]
    simp [Vui.calcDerived]
  · rw [hres2.1, hhid2, hkeep2.1, hkeep2.2.2.1]
  · rw [hres2.2, hhid2, hkeep2.2.1, hkeep2.2.2.2]

/-- C7: `set(v)` on an observable cell updates the value and calls the
registered listeners, in registration order, iff `v` differs from the current
value; a second `set(v)` with the same `v` is a no-op, so each listener is
invoked at most once in total. -/
theorem claim_C7_observable_set {κ α : Type} [DecidableEq α]
    (o : Vui.Obs κ α) (v : α) :
    (v ≠ o.value →
      (o.set v).1.value = v ∧
      (o.set v).2 = o.observers.map fun k => (k, v)) ∧
    (v = o.value → o.set v = (o, [])) ∧
    (o.set v).1.set v = ((o.set v).1, []) := by
  refine ⟨?_, ?_, ?_⟩
  · intro hne
    have h : o.value ≠ v := fun h => hne h.symm
    simp [Vui.Obs.set, h]
  · intro heq
    simp [Vui.Obs.set, heq]
  · by_cases h : o.value = v
    · simp [Vui.Obs.set, h]
    · simp [Vui.Obs.set, h]

/-- Witness for C7: a cell with value 0 and listeners [0, 1]; `set 1` updates
and fires both listeners once, the second `set 1` is a no-op. -/
theorem claim_C7_witness :
    (1 : ℕ) ≠ (Vui.Obs.mk (0 : ℕ) [0, 1] : Vui.Obs ℕ ℕ).value ∧
    ((Vui.Obs.mk (0 : ℕ) [0, 1] : Vui.Obs ℕ ℕ).set 1).1.value = 1 ∧
    ((Vui.Obs.mk (0 : ℕ) [0, 1] : Vui.Obs ℕ ℕ).set 1).2 = [(0, 1), (1, 1)] ∧
    ((Vui.Obs.mk (0 : ℕ) [0, 1] : Vui.Obs ℕ ℕ).set 1).1.set 1 =
      (((Vui.Obs.mk (0 : ℕ) [0, 1] : Vui.Obs ℕ ℕ).set 1).1, []) := by
  have h := claim_C7_observable_set (Vui.Obs.mk (0 : ℕ) [0, 1] : Vui.Obs ℕ ℕ) 1
  have hne : (1 : ℕ) ≠ (Vui.Obs.mk (0 : ℕ) [0, 1] : Vui.Obs ℕ ℕ).value := by
    decide
  refine ⟨hne, (h.1 hne).1, ?_, h.2.2⟩
  rw [(h.1 hne).2]
  rfl

/-- C2: for every `lo < hi`, `size ≥ 0` and align in {START, CENTER, END},
if `size ≤ hi - lo` then the pair `(a, b)` returned by the per-axis
alignment calculation satisfies `b - a = size` and `lo ≤ a ≤ b ≤ hi`;
and for align = FILL, or whenever `size > hi - lo`, the returned interval
is exactly `(lo, hi)`. -/
theorem claim_C2_alignment_formula (lo hi size : ℚ) (align : Vui.Alignment)
    (hlohi : lo < hi) (hsize : 0 ≤ size) :
    (align ≠ .fill → size ≤ hi - lo →
      (Vui.calcCoords lo hi size align).2 - (Vui.calcCoords lo hi size align).1 = size ∧
      lo ≤ (Vui.calcCoords lo hi size align).1 ∧
      (Vui.calcCoords lo hi size align).1 ≤ (Vui.calcCoords lo hi size align).2 ∧
      (Vui.calcCoords lo hi size align).2 ≤ hi) ∧
    ((align = .fill ∨ hi - lo < size) → Vui.calcCoords lo hi size align = (lo, hi)) := by
  constructor
  · intro hnf hle
    cases align with
    | fill => exact absurd rfl hnf
    | left =>
      simp only [Vui.calcCoords]
      by_cases h : hi - lo - size ≤ 0
      · have heq : size = hi - lo := le_antisymm hle (by linarith)
        simp only [h, or_true, if_pos, reduceCtorEq, false_or]
        refine ⟨by linarith, le_refl _, by linarith, le_refl _⟩
      · simp only [h, or_false, reduceCtorEq, if_false]
        refine ⟨by ring, le_refl _, by linarith, by linarith⟩
    | center =>
      simp only [Vui.calcCoords]
      by_cases h : hi - lo - size ≤ 0
      · have heq : size = hi - lo := le_antisymm hle (by linarith)
        simp only [h, or_true, if_pos, reduceCtorEq, false_or]
        refine ⟨by linarith, le_refl _, by linarith, le_refl _⟩
      · simp only [h, or_false, reduceCtorEq, if_false]
        refine ⟨by ring, by linarith, by linarith, by linarith⟩
    | right =>
      simp only [Vui.calcCoords]
      by_cases h : hi - lo - size ≤ 0
      · have heq : size = hi - lo := le_antisymm hle (by linarith)
        simp only [h, or_true, if_pos, reduceCtorEq, false_or]
        refine ⟨by linarith, le_refl _, by linarith, le_refl _⟩
      · simp only [h, or_false, reduceCtorEq, if_false]
        refine ⟨by ring, by linarith, by linarith, le_refl _⟩
  · intro h
    cases h with
    | inl hf => simp [Vui.calcCoords, hf]
    | inr hgt =>
      have : hi - lo - size ≤ 0 := by linarith
      simp [Vui.calcCoords, this]

/-- Witness for C2 at `lo = 0`, `hi = 10`, `size = 4`, align = CENTER. -/
theorem claim_C2_witness :
    (0 : ℚ) < 10 ∧ (0 : ℚ) ≤ 4 ∧
    ((Vui.Alignment.center ≠ .fill → (4 : ℚ) ≤ 10 - 0 →
      (Vui.calcCoords 0 10 4 .center).2 - (Vui.calcCoords 0 10 4 .center).1 = 4 ∧
      (0 : ℚ) ≤ (Vui.calcCoords 0 10 4 .center).1 ∧
      (Vui.calcCoords 0 10 4 .center).1 ≤ (Vui.calcCoords 0 10 4 .center).2 ∧
      (Vui.calcCoords 0 10 4 .center).2 ≤ 10) ∧
    ((Vui.Alignment.center = .fill ∨ (10 : ℚ) - 0 < 4) →
      Vui.calcCoords 0 10 4 .center = (0, 10))) :=
  ⟨by norm_num, by norm_num,
    claim_C2_alignment_formula 0 10 4 .center (by norm_num) (by norm_num)⟩

theorem Vui.specFlexRest_cons (e : ℚ) (c : Vui.ChildView)
    (cs : List Vui.ChildView) :
    Vui.specFlexRest e (c :: cs) =
      (if c.hidden then 0
       else c.derivedWidth + (if c.flexWidth then e else 0)) +
        Vui.specFlexRest e cs := by
  simp [Vui.specFlexRest]

theorem Vui.specFlexRest_nonneg (e : ℚ) (he : 0 ≤ e) :
    ∀ cs : List Vui.ChildView, (∀ c ∈ cs, 0 ≤ c.derivedWidth) →
      0 ≤ Vui.specFlexRest e cs
  | [], _ => le_of_eq (by simp [Vui.specFlexRest])
  | c :: cs, h => by
    have hr := Vui.specFlexRest_nonneg e he cs
      fun d hd => h d (List.mem_cons_of_mem _ hd)
    have hc := h c (List.mem_cons_self _ _)
    rw [Vui.specFlexRest_cons]
    have hterm : (0 : ℚ) ≤
        (if c.hidden then 0
         else c.derivedWidth + (if c.flexWidth then e else 0)) := by
      split
      · exact le_refl 0
      · split <;> linarith
    linarith

theorem Vui.hstackPlaceFrom_eq_specFlex (x1 y0 y1 e : ℚ) (he : 0 < e) :
    ∀ (cs : List Vui.ChildView) (x : ℚ),
      (∀ c ∈ cs, 0 ≤ c.derivedWidth) →
      x + Vui.specFlexRest e cs ≤ x1 →
      Vui.hstackPlaceFrom x1 y0 y1 e x cs = Vui.specFlexPlaceFrom y0 y1 e x cs
  | [], _, _, _ => rfl
  | c :: cs, x, hnn, hinv => by
    have hnn' : ∀ d ∈ cs, 0 ≤ d.derivedWidth :=
      fun d hd => hnn d (List.mem_cons_of_mem _ hd)
    have hrest : 0 ≤ Vui.specFlexRest e cs :=
      Vui.specFlexRest_nonneg e he.le cs hnn'
    have hne : ¬ e ≤ 0 := not_le.mpr he
    rw [Vui.specFlexRest_cons] at hinv
    cases hh : c.hidden with
    | true =>
      simp only [hh, if_pos] at hinv
      simp only [Vui.hstackPlaceFrom, Vui.specFlexPlaceFrom, hh, if_pos]
      exact congrArg (List.cons none)
        (Vui.hstackPlaceFrom_eq_specFlex x1 y0 y1 e he cs x hnn'
          (by linarith))
    | false =>
      rw [hh] at hinv
      simp only [Bool.false_eq_true, if_false] at hinv
      cases hf : c.flexWidth with
      | true =>
        rw [hf] at hinv
        simp only [if_pos] at hinv
        simp [Vui.hstackPlaceFrom, Vui.specFlexPlaceFrom, hh, hf, hne]
        rw [show x + c.derivedWidth + e = x + (c.derivedWidth + e) from by
          ring]
        rw [Vui.hstackPlaceFrom_eq_specFlex x1 y0 y1 e he cs
          (x + (c.derivedWidth + e)) hnn' (by linarith)]
        exact ⟨rfl, rfl⟩
      | false =>
        rw [hf] at hinv
        simp only [Bool.false_eq_true, if_false, add_zero] at hinv
        have hle : x + c.derivedWidth ≤ x1 := by linarith
        simp [Vui.hstackPlaceFrom, Vui.specFlexPlaceFrom, hh, hf, hne,
          min_eq_left hle]
        rw [Vui.hstackPlaceFrom_eq_specFlex x1 y0 y1 e he cs
          (x + c.derivedWidth) hnn' (by linarith)]

theorem Vui.hstackContentWidth_cons (c : Vui.ChildView)
    (cs : List Vui.ChildView) :
    Vui.hstackContentWidth (c :: cs) =
      c.derivedWidth + Vui.hstackContentWidth cs := by
  simp [Vui.hstackContentWidth]

theorem Vui.countFlexWidth_cons (c : Vui.ChildView) (cs : List Vui.ChildView) :
    Vui.countFlexWidth (c :: cs) =
      (if (!c.hidden && c.flexWidth) = true then 1 else 0) +
        Vui.countFlexWidth cs := by
  simp only [Vui.countFlexWidth, List.filter_cons]
  split
  · simp [List.length_cons, Nat.add_comm]
  · simp

theorem Vui.specFlexRest_le (e : ℚ) (he : 0 ≤ e) :
    ∀ cs : List Vui.ChildView, (∀ c ∈ cs, 0 ≤ c.derivedWidth) →
      Vui.specFlexRest e cs ≤
        Vui.hstackContentWidth cs + e * (Vui.countFlexWidth cs : ℚ)
  | [], _ => by
    simp [Vui.specFlexRest, Vui.hstackContentWidth, Vui.countFlexWidth]
  | c :: cs, h => by
    have ih := Vui.specFlexRest_le e he cs
      fun d hd => h d (List.mem_cons_of_mem _ hd)
    have hc := h c (List.mem_cons_self _ _)
    rw [Vui.specFlexRest_cons, Vui.hstackContentWidth_cons,
      Vui.countFlexWidth_cons]
    cases hh : c.hidden <;> cases hf : c.flexWidth <;>
      simp only [hh, hf, Bool.not_true, Bool.not_false, Bool.true_and,
        Bool.false_and, Bool.and_true, Bool.and_false, if_true, if_false,
        Bool.false_eq_true, Bool.true_eq_false, Nat.cast_add, Nat.cast_ite,
        Nat.cast_one, Nat.cast_zero] <;>
      nlinarith [ih, hc]

/-- C1: for a horizontal stack whose allocated width exceeds its content
width, the extra space per flex child equals
`max 0 (available - content_width) / max (flex_count) 1`; visible children
are placed contiguously left to right from the left edge of the pane's
span, each flex child's allocated width is its derived width plus that
extra, each non-flex child's exactly its derived width. In particular, for
children A (`min_width=200`, flex) and B (`min_width=100`, fixed) on a pane
`(100,150)-(500,550)`, the stack's derived width is 300 and derived height
150, A's allocated box is `(100,150)-(400,550)` and B's is
`(400,150)-(500,550)`. -/
theorem claim_C1_hstack_partition :
    (∀ (coords : Vui.Rect) (cs : List Vui.ChildView),
      (∀ c ∈ cs, 0 ≤ c.derivedWidth) →
      Vui.hstackContentWidth cs < coords.x1 - coords.x0 →
      Vui.hstackUpdate coords (Vui.hstackContentWidth cs) cs =
        Vui.specFlexPlaceFrom coords.y0 coords.y1
          (max 0 (coords.x1 - coords.x0 - Vui.hstackContentWidth cs) /
            ((max (Vui.countFlexWidth cs) 1 : ℕ) : ℚ))
          coords.x0 cs) ∧
    Vui.scenarioChildA.derivedWidth = 200 ∧
    Vui.scenarioChildB.derivedWidth = 100 ∧
    Vui.calcDerived false none
      (some (Vui.hstackContentWidth
        [Vui.scenarioChildA, Vui.scenarioChildB])) = 300 ∧
    Vui.calcDerived false none
      (Vui.hstackContentHeight
        [Vui.scenarioChildA, Vui.scenarioChildB]) = 150 ∧
    Vui.hstackUpdate ⟨100, 150, 500, 550⟩
      (Vui.hstackContentWidth [Vui.scenarioChildA, Vui.scenarioChildB])
      [Vui.scenarioChildA, Vui.scenarioChildB] =
      [some ⟨100, 150, 400, 550⟩, some ⟨400, 150, 500, 550⟩] := by
  refine ⟨?_, by norm_num [Vui.scenarioChildA, Vui.calcDerived],
    by norm_num [Vui.scenarioChildB, Vui.calcDerived],
    by norm_num [Vui.hstackContentWidth, Vui.scenarioChildA,
      Vui.scenarioChildB, Vui.calcDerived],
    by norm_num [Vui.hstackContentHeight, Vui.listMax, Vui.scenarioChildA,
      Vui.scenarioChildB, Vui.calcDerived],
    by norm_num [Vui.hstackUpdate, Vui.hstackPlaceFrom,
      Vui.hstackContentWidth, Vui.countFlexWidth, Vui.scenarioChildA,
      Vui.scenarioChildB, Vui.calcDerived, List.filter]⟩
  intro coords cs hnn hlt
  have hm1 : (1 : ℕ) ≤ max (Vui.countFlexWidth cs) 1 := le_max_right _ _
  have hmaxpos : 0 < ((max (Vui.countFlexWidth cs) 1 : ℕ) : ℚ) := by
    exact_mod_cast Nat.lt_of_lt_of_le Nat.zero_lt_one hm1
  have hwpos : 0 < coords.x1 - coords.x0 - Vui.hstackContentWidth cs := by
    linarith
  have hmaxeq :
      max 0 (coords.x1 - coords.x0 - Vui.hstackContentWidth cs) =
        coords.x1 - coords.x0 - Vui.hstackContentWidth cs :=
    max_eq_right hwpos.le
  have he : 0 < (coords.x1 - coords.x0 - Vui.hstackContentWidth cs) /
      ((max (Vui.countFlexWidth cs) 1 : ℕ) : ℚ) := div_pos hwpos hmaxpos
  unfold Vui.hstackUpdate
  rw [hmaxeq]
  apply Vui.hstackPlaceFrom_eq_specFlex _ _ _ _ he cs coords.x0 hnn
  have hrle := Vui.specFlexRest_le _ he.le cs hnn
  have hcf : ((Vui.countFlexWidth cs : ℕ) : ℚ) ≤
      ((max (Vui.countFlexWidth cs) 1 : ℕ) : ℚ) :=
    Nat.cast_le.mpr (le_max_left _ _)
  have hmul : (coords.x1 - coords.x0 - Vui.hstackContentWidth cs) /
        ((max (Vui.countFlexWidth cs) 1 : ℕ) : ℚ) *
        ((max (Vui.countFlexWidth cs) 1 : ℕ) : ℚ) =
      coords.x1 - coords.x0 - Vui.hstackContentWidth cs :=
    div_mul_cancel₀ _ (ne_of_gt hmaxpos)
  have hmono : (coords.x1 - coords.x0 - Vui.hstackContentWidth cs) /
        ((max (Vui.countFlexWidth cs) 1 : ℕ) : ℚ) *
        ((Vui.countFlexWidth cs : ℕ) : ℚ) ≤
      coords.x1 - coords.x0 - Vui.hstackContentWidth cs := by
    calc (coords.x1 - coords.x0 - Vui.hstackContentWidth cs) /
          ((max (Vui.countFlexWidth cs) 1 : ℕ) : ℚ) *
          ((Vui.countFlexWidth cs : ℕ) : ℚ)
        ≤ (coords.x1 - coords.x0 - Vui.hstackContentWidth cs) /
          ((max (Vui.countFlexWidth cs) 1 : ℕ) : ℚ) *
          ((max (Vui.countFlexWidth cs) 1 : ℕ) : ℚ) :=
          mul_le_mul_of_nonneg_left hcf he.le
      _ = coords.x1 - coords.x0 - Vui.hstackContentWidth cs := hmul
  linarith

/-- Witness for C1: the generic partition statement applied to the spec's
scenario children A and B on the pane `(100,150)-(500,550)`. -/
theorem claim_C1_witness :
    (∀ c ∈ [Vui.scenarioChildA, Vui.scenarioChildB], 0 ≤ c.derivedWidth) ∧
    Vui.hstackContentWidth [Vui.scenarioChildA, Vui.scenarioChildB] <
      (Vui.Rect.mk 100 150 500 550).x1 - (Vui.Rect.mk 100 150 500 550).x0 ∧
    Vui.hstackUpdate (Vui.Rect.mk 100 150 500 550)
      (Vui.hstackContentWidth [Vui.scenarioChildA, Vui.scenarioChildB])
      [Vui.scenarioChildA, Vui.scenarioChildB] =
      Vui.specFlexPlaceFrom (Vui.Rect.mk 100 150 500 550).y0
        (Vui.Rect.mk 100 150 500 550).y1
        (max 0 ((Vui.Rect.mk 100 150 500 550).x1 -
            (Vui.Rect.mk 100 150 500 550).x0 -
            Vui.hstackContentWidth [Vui.scenarioChildA, Vui.scenarioChildB]) /
          ((max (Vui.countFlexWidth
              [Vui.scenarioChildA, Vui.scenarioChildB]) 1 : ℕ) : ℚ))
        (Vui.Rect.mk 100 150 500 550).x0
        [Vui.scenarioChildA, Vui.scenarioChildB] := by
  have hnn : ∀ c ∈ [Vui.scenarioChildA, Vui.scenarioChildB],
      0 ≤ c.derivedWidth := by
    intro c hc
    rcases List.mem_cons.mp hc with h | hc2
    · subst h; norm_num [Vui.scenarioChildA, Vui.calcDerived]
    · rcases List.mem_cons.mp hc2 with h | h
      · subst h; norm_num [Vui.scenarioChildB, Vui.calcDerived]
      · exact absurd h (List.not_mem_nil c)
  have hlt : Vui.hstackContentWidth [Vui.scenarioChildA, Vui.scenarioChildB] <
      (Vui.Rect.mk 100 150 500 550).x1 - (Vui.Rect.mk 100 150 500 550).x0 := by
    norm_num [Vui.hstackContentWidth, Vui.scenarioChildA, Vui.scenarioChildB,
      Vui.calcDerived]
  exact ⟨hnn, hlt,
    claim_C1_hstack_partition.1 (Vui.Rect.mk 100 150 500 550)
      [Vui.scenarioChildA, Vui.scenarioChildB] hnn hlt⟩

theorem Vui.hstackPlaceFrom_eq_specClamp (x1 y0 y1 e : ℚ) (he : e ≤ 0) :
    ∀ (cs : List Vui.ChildView) (x : ℚ),
      Vui.hstackPlaceFrom x1 y0 y1 e x cs =
        Vui.specClampPlaceFrom x1 y0 y1 x cs
  | [], _ => rfl
  | c :: cs, x => by
    cases hh : c.hidden with
    | true =>
      simp only [Vui.hstackPlaceFrom, Vui.specClampPlaceFrom, hh, if_pos]
      exact congrArg (List.cons none)
        (Vui.hstackPlaceFrom_eq_specClamp x1 y0 y1 e he cs x)
    | false =>
      simp only [Vui.hstackPlaceFrom, Vui.specClampPlaceFrom, hh,
        Bool.false_eq_true, if_false, if_pos (Or.inl he)]
      rw [Vui.hstackPlaceFrom_eq_specClamp x1 y0 y1 e he cs
        (min (x + c.derivedWidth) x1)]

/-- C4: when a horizontal stack's allocated span does not exceed its total
content width (`extra_total ≤ 0`), every visible child is laid out in order
at its derived width with its right edge clamped to the span end, so later
children are clipped rather than earlier children shrunk. In particular,
children A (`min_width=200`) and B (`min_width=100`) attached to a pane
`(0,0)-(250,100)` get boxes A = `(0,0)-(200,100)` and
B = `(200,0)-(250,100)`. -/
theorem claim_C4_overflow_clamp :
    (∀ (coords : Vui.Rect) (cs : List Vui.ChildView),
      coords.x1 - coords.x0 ≤ Vui.hstackContentWidth cs →
      Vui.hstackUpdate coords (Vui.hstackContentWidth cs) cs =
        Vui.specClampPlaceFrom coords.x1 coords.y0 coords.y1 coords.x0 cs) ∧
    Vui.hstackUpdate ⟨0, 0, 250, 100⟩
      (Vui.hstackContentWidth [Vui.scenarioChildA, Vui.scenarioChildB])
      [Vui.scenarioChildA, Vui.scenarioChildB] =
      [some ⟨0, 0, 200, 100⟩, some ⟨200, 0, 250, 100⟩] := by
  constructor
  · intro coords cs hle
    have hm1 : (1 : ℕ) ≤ max (Vui.countFlexWidth cs) 1 := le_max_right _ _
    have hmaxpos : 0 < ((max (Vui.countFlexWidth cs) 1 : ℕ) : ℚ) := by
      exact_mod_cast Nat.lt_of_lt_of_le Nat.zero_lt_one hm1
    have he : (coords.x1 - coords.x0 - Vui.hstackContentWidth cs) /
        ((max (Vui.countFlexWidth cs) 1 : ℕ) : ℚ) ≤ 0 :=
      div_nonpos_of_nonpos_of_nonneg (by linarith) hmaxpos.le
    unfold Vui.hstackUpdate
    exact Vui.hstackPlaceFrom_eq_specClamp _ _ _ _ he cs coords.x0
  · norm_num [Vui.hstackUpdate, Vui.hstackPlaceFrom, Vui.hstackContentWidth,
      Vui.countFlexWidth, Vui.scenarioChildA, Vui.scenarioChildB,
      Vui.calcDerived, List.filter]

/-- Witness for C4: the clamp statement applied to the scenario children on
the pane `(0,0)-(250,100)`. -/
theorem claim_C4_witness :
    (Vui.Rect.mk 0 0 250 100).x1 - (Vui.Rect.mk 0 0 250 100).x0 ≤
      Vui.hstackContentWidth [Vui.scenarioChildA, Vui.scenarioChildB] ∧
    Vui.hstackUpdate (Vui.Rect.mk 0 0 250 100)
      (Vui.hstackContentWidth [Vui.scenarioChildA, Vui.scenarioChildB])
      [Vui.scenarioChildA, Vui.scenarioChildB] =
      Vui.specClampPlaceFrom (Vui.Rect.mk 0 0 250 100).x1
        (Vui.Rect.mk 0 0 250 100).y0 (Vui.Rect.mk 0 0 250 100).y1
        (Vui.Rect.mk 0 0 250 100).x0
        [Vui.scenarioChildA, Vui.scenarioChildB] := by
  have hle : (Vui.Rect.mk 0 0 250 100).x1 - (Vui.Rect.mk 0 0 250 100).x0 ≤
      Vui.hstackContentWidth [Vui.scenarioChildA, Vui.scenarioChildB] := by
    norm_num [Vui.hstackContentWidth, Vui.scenarioChildA, Vui.scenarioChildB,
      Vui.calcDerived]
  exact ⟨hle, claim_C4_overflow_clamp.1 (Vui.Rect.mk 0 0 250 100)
    [Vui.scenarioChildA, Vui.scenarioChildB] hle⟩

theorem Vui.countFlexWidth_swapAxes :
    ∀ cs : List Vui.ChildView,
      Vui.countFlexWidth (cs.map Vui.ChildView.swapAxes) =
        Vui.countFlexHeight cs
  | [] => rfl
  | c :: cs => by
    have ih := Vui.countFlexWidth_swapAxes cs
    cases hq : (!c.hidden && c.flexHeight) <;>
      simp_all [Vui.countFlexWidth, Vui.countFlexHeight, List.filter_cons,
        Vui.ChildView.swapAxes, hq]

theorem Vui.vstackPlaceFrom_eq_ofHAxis (y0 x0 x1 e : ℚ) :
    ∀ (cs : List Vui.ChildView) (y : ℚ),
      Vui.vstackPlaceFrom y0 x0 x1 e y cs =
        (Vui.hstackPlaceFrom (-y0) x0 x1 e (-y)
          (cs.map Vui.ChildView.swapAxes)).map (Option.map Vui.Rect.ofHAxis)
  | [], _ => rfl
  | c :: cs, y => by
    cases hh : c.hidden with
    | true =>
      simp only [Vui.vstackPlaceFrom, Vui.hstackPlaceFrom, List.map_cons,
        Vui.ChildView.swapAxes, hh, if_pos, Option.map_none']
      exact congrArg (List.cons none)
        (Vui.vstackPlaceFrom_eq_ofHAxis y0 x0 x1 e cs y)
    | false =>
      by_cases hc : e ≤ 0 ∨ c.flexHeight = false
      · have hswap : min (-y + c.derivedHeight) (-y0) =
            -(max (y - c.derivedHeight) y0) := by
          rcases le_total (y - c.derivedHeight) y0 with h | h
          · rw [max_eq_right h, min_eq_right (by linarith)]
          · rw [max_eq_left h, min_eq_left (by linarith)]
            ring
        simp only [Vui.vstackPlaceFrom, Vui.hstackPlaceFrom, List.map_cons,
          Vui.ChildView.swapAxes, hh, Bool.false_eq_true, if_false,
          if_pos hc, List.map, Option.map_some', hswap, Vui.Rect.ofHAxis,
          neg_neg]
        rw [Vui.vstackPlaceFrom_eq_ofHAxis y0 x0 x1 e cs
          (max (y - c.derivedHeight) y0)]
      · have hflip : -y + c.derivedHeight + e =
            -(y - c.derivedHeight - e) := by ring
        simp only [Vui.vstackPlaceFrom, Vui.hstackPlaceFrom, List.map_cons,
          Vui.ChildView.swapAxes, hh, Bool.false_eq_true, if_false,
          if_neg hc, List.map, Option.map_some', hflip, Vui.Rect.ofHAxis,
          neg_neg]
        rw [Vui.vstackPlaceFrom_eq_ofHAxis y0 x0 x1 e cs
          (y - c.derivedHeight - e)]

/-- C6: a vertical stack lays out its visible children from the top edge
of the allocated span downward, the first child occupying the topmost
slot, mirroring the horizontal algorithm with the axes swapped (the
vertical axis, walked downward from `y1`, corresponds under the reversible
coordinate change `u = -y` to the horizontal axis walked upward from the
left edge). In particular, two children with `min_height` 100 (flex) and
150 (fixed) on a pane `(100,150)-(500,550)` get boxes `(100,300)-(500,550)`
and `(100,150)-(500,300)`. -/
theorem claim_C6_vstack_ordering :
    (∀ (coords : Vui.Rect) (dH : ℚ) (cs : List Vui.ChildView),
      Vui.vstackUpdate coords dH cs =
        (Vui.hstackUpdate coords.toHAxis dH
          (cs.map Vui.ChildView.swapAxes)).map
            (Option.map Vui.Rect.ofHAxis)) ∧
    Vui.vstackUpdate ⟨100, 150, 500, 550⟩
      (Vui.calcDerived false none
        (some (Vui.vstackContentHeight
          [Vui.scenarioChildA, Vui.scenarioChildB])))
      [Vui.scenarioChildA, Vui.scenarioChildB] =
      [some ⟨100, 300, 500, 550⟩, some ⟨100, 150, 500, 300⟩] := by
  constructor
  · intro coords dH cs
    unfold Vui.vstackUpdate Vui.hstackUpdate
    rw [Vui.countFlexWidth_swapAxes cs]
    have h0 : coords.toHAxis.x1 - coords.toHAxis.x0 = coords.y1 - coords.y0 := by
      simp [Vui.Rect.toHAxis]
      ring
    rw [h0]
    have h1 : coords.toHAxis.x1 = -coords.y0 := rfl
    have h2 : coords.toHAxis.y0 = coords.x0 := rfl
    have h3 : coords.toHAxis.y1 = coords.x1 := rfl
    have h4 : coords.toHAxis.x0 = -coords.y1 := rfl
    rw [h1, h2, h3, h4]
    exact Vui.vstackPlaceFrom_eq_ofHAxis coords.y0 coords.x0 coords.x1
      ((coords.y1 - coords.y0 - dH) /
        ((max (Vui.countFlexHeight cs) 1 : ℕ) : ℚ)) cs coords.y1
  · norm_num [Vui.vstackUpdate, Vui.vstackPlaceFrom,
      Vui.vstackContentHeight, Vui.countFlexHeight, Vui.scenarioChildA,
      Vui.scenarioChildB, Vui.calcDerived, List.filter]

/-- C10: constructing a horizontal stack, a vertical stack or a layered
layout raises an exception during construction exactly when the children
list is empty (the cross-axis content size is a `max` over the children,
undefined for zero children); a non-empty children list makes all three
constructions succeed. -/
theorem claim_C10_empty_children_raise (cs : List Vui.ChildView) :
    (Vui.hstackInitContent cs = none ↔ cs = []) ∧
    (Vui.vstackInitContent cs = none ↔ cs = []) ∧
    (Vui.layersInitContent cs = none ↔ cs = []) := by
  cases cs with
  | nil =>
    refine ⟨?_, ?_, ?_⟩ <;>
      simp [Vui.hstackInitContent, Vui.vstackInitContent,
        Vui.layersInitContent, Vui.hstackContentHeight,
        Vui.vstackContentWidth, Vui.listMax]
  | cons c cs =>
    refine ⟨?_, ?_, ?_⟩ <;>
      simp [Vui.hstackInitContent, Vui.vstackInitContent,
        Vui.layersInitContent, Vui.hstackContentHeight,
        Vui.vstackContentWidth, Vui.listMax]

/-- C5 (divergence of the code from the claim and from the repository's own
test `test_layout.py:247`): in the layered scenario with children C1 (fills
the pane `(100,150)-(500,550)`) and C2 (100×150, centered, active box
`(250,275)-(350,425)`), a press at `(200,200)` lies outside C2's active box
and inside C1's, yet `LayersLayout.on_mouse_press` dispatches it to the
topmost non-hidden child C2 (index 1) — the choice ignores the press
coordinates and the handled status, so C1 (index 0) never receives the
event; a press at `(300,300)` inside C2's box is likewise sent to C2. -/
theorem claim_C5_layers_routing_divergence :
    Vui.layersChildC2.box.containsPt 200 200 = false ∧
    Vui.layersChildC1.box.containsPt 200 200 = true ∧
    Vui.layersPressTarget [Vui.layersChildC1, Vui.layersChildC2] 200 200 =
      some 1 ∧
    some (1 : ℕ) ≠ some 0 ∧
    Vui.layersChildC2.box.containsPt 300 300 = true ∧
    Vui.layersPressTarget [Vui.layersChildC1, Vui.layersChildC2] 300 300 =
      some 1 := by
  have hcf : Vui.Alignment.center ≠ Vui.Alignment.fill := by decide
  refine ⟨?_, ?_, ?_, by decide, ?_, ?_⟩
  · norm_num [Vui.layersChildC2, Vui.Rect.containsPt, Vui.calcCoords,
      Vui.calcDerived, hcf]
  · norm_num [Vui.layersChildC1, Vui.Rect.containsPt, Vui.calcCoords,
      Vui.calcDerived]
  · simp [Vui.layersPressTarget, Vui.layersTopIdx, Vui.layersChildC1,
      Vui.layersChildC2]
  · norm_num [Vui.layersChildC2, Vui.Rect.containsPt, Vui.calcCoords,
      Vui.calcDerived, hcf]
  · simp [Vui.layersPressTarget, Vui.layersTopIdx, Vui.layersChildC1,
      Vui.layersChildC2]

theorem Vui.scanChildren_eq_none (x y : ℚ) :
    ∀ boxes : List Vui.Rect, (∀ b ∈ boxes, b.containsPt x y = false) →
      Vui.scanChildren boxes x y = none
  | [], _ => rfl
  | b :: bs, h => by
    have hb := h b (List.mem_cons_self _ _)
    simp only [Vui.scanChildren, hb, Bool.false_eq_true, if_false]
    rw [Vui.scanChildren_eq_none x y bs
      fun d hd => h d (List.mem_cons_of_mem _ hd)]
    rfl

theorem Vui.scanChildren_first (x y : ℚ) :
    ∀ (boxes : List Vui.Rect) (j : ℕ), Vui.scanChildren boxes x y = some j →
      (∃ b, boxes.get? j = some b ∧ b.containsPt x y = true) ∧
      ∀ k, k < j → ∀ b, boxes.get? k = some b → b.containsPt x y = false
  | [], j, h => by simp [Vui.scanChildren] at h
  | b :: bs, j, h => by
    by_cases hb : b.containsPt x y
    · simp only [Vui.scanChildren, hb, if_pos] at h
      obtain rfl : (0 : ℕ) = j := Option.some.inj h
      exact ⟨⟨b, rfl, hb⟩, fun k hk => absurd hk (Nat.not_lt_zero k)⟩
    · have hb' : b.containsPt x y = false := by
        cases hcb : b.containsPt x y
        · rfl
        · exact absurd hcb hb
      simp only [Vui.scanChildren, hb', Bool.false_eq_true, if_false] at h
      cases hs : Vui.scanChildren bs x y with
      | none => rw [hs] at h; simp at h
      | some i =>
        rw [hs] at h
        simp only [Option.map_some'] at h
        obtain rfl : i + 1 = j := Option.some.inj h
        have ih := Vui.scanChildren_first x y bs i hs
        refine ⟨?_, ?_⟩
        · obtain ⟨b0, hb0, hc0⟩ := ih.1
          exact ⟨b0, by simpa [List.get?_cons_succ] using hb0, hc0⟩
        · intro k hk b0 hb0
          cases k with
          | zero =>
            rw [List.get?_cons_zero] at hb0
            rw [← Option.some.inj hb0]
            exact hb'
          | succ k0 =>
            rw [List.get?_cons_succ] at hb0
            exact ih.2 k0 (Nat.lt_of_succ_lt_succ hk) b0 hb0

theorem Vui.observeMousePos_none_clears (x y : ℚ) :
    ∀ (boxes : List Vui.Rect) (cache : Option ℕ),
      (∀ b ∈ boxes, b.containsPt x y = false) →
      (Vui.observeMousePos boxes cache (some (x, y))).1 = none := by
  intro boxes cache h
  have hscan : Vui.scanChildren boxes x y = none :=
    Vui.scanChildren_eq_none x y boxes h
  cases cache with
  | none =>
    simp only [Vui.observeMousePos, Vui.findChildPane, hscan]
  | some i =>
    cases hg : boxes.get? i with
    | none =>
      simp only [Vui.observeMousePos, Vui.findChildPane, hg, hscan,
        Option.elim, Bool.false_eq_true, if_false]
    | some b =>
      have hb : b.containsPt x y = false := h b (List.get?_mem hg)
      simp only [Vui.observeMousePos, Vui.findChildPane, hg, hb, hscan,
        Option.elim, Bool.false_eq_true, if_false]

theorem Vui.observeMousePos_nonePos (boxes : List Vui.Rect)
    (cache : Option ℕ) :
    Vui.observeMousePos boxes cache none =
      (cache, cache.elim [] fun i => [(i, none)]) := by
  cases cache <;> rfl

/-- C8 counterexample: with one child of active box `(0,0)-(100,100)` and
that child cached as the mouseover child, setting the pointer position to
`None` leaves the cache set (only the child's reported mouse position is
reset) — it is not cleared. -/
theorem claim_C8_pointer_cache_counterexample :
    (Vui.observeMousePos [Vui.Rect.mk 0 0 100 100] (some 0) none).1 =
      some 0 ∧
    some (0 : ℕ) ≠ (none : Option ℕ) :=
  ⟨rfl, by decide⟩

/-- C8 (amended): the cached mouseover child is reused as the event target
while the point stays inside its active box; otherwise the children are
scanned in list order and the first whose active box contains the point is
selected; a non-None pointer position lying outside every child's active
box clears the cache; a None pointer position leaves the cache unchanged
and only resets the cached child's mouse position. -/
theorem claim_C8_pointer_cache_amended :
    (∀ (boxes : List Vui.Rect) (i : ℕ) (b : Vui.Rect) (x y : ℚ),
      boxes.get? i = some b → b.containsPt x y = true →
      Vui.findChildPane boxes (some i) x y = some i) ∧
    (∀ (boxes : List Vui.Rect) (i : ℕ) (x y : ℚ),
      (∀ b ∈ boxes.get? i, b.containsPt x y = false) →
      Vui.findChildPane boxes (some i) x y = Vui.scanChildren boxes x y) ∧
    (∀ (boxes : List Vui.Rect) (x y : ℚ),
      Vui.findChildPane boxes none x y = Vui.scanChildren boxes x y) ∧
    (∀ (boxes : List Vui.Rect) (x y : ℚ) (j : ℕ),
      Vui.scanChildren boxes x y = some j →
      (∃ b, boxes.get? j = some b ∧ b.containsPt x y = true) ∧
      ∀ k, k < j → ∀ b, boxes.get? k = some b → b.containsPt x y = false) ∧
    (∀ (boxes : List Vui.Rect) (cache : Option ℕ) (x y : ℚ),
      (∀ b ∈ boxes, b.containsPt x y = false) →
      (Vui.observeMousePos boxes cache (some (x, y))).1 = none) ∧
    (∀ (boxes : List Vui.Rect) (cache : Option ℕ),
      Vui.observeMousePos boxes cache none =
        (cache, cache.elim [] fun i => [(i, none)])) := by
  refine ⟨?_, ?_, ?_, ?_, ?_, ?_⟩
  · intro boxes i b x y hg hc
    simp only [Vui.findChildPane, hg, hc, if_pos]
  · intro boxes i x y h
    cases hg : boxes.get? i with
    | none => simp only [Vui.findChildPane, hg]
    | some b =>
      have hb : b.containsPt x y = false := h b (by rw [hg]; rfl)
      simp only [Vui.findChildPane, hg, hb, Bool.false_eq_true, if_false]
  · intro boxes x y
    rfl
  · intro boxes x y j h
    exact Vui.scanChildren_first x y boxes j h
  · intro boxes cache x y h
    exact Vui.observeMousePos_none_clears x y boxes cache h
  · intro boxes cache
    exact Vui.observeMousePos_nonePos boxes cache

/-- Witness for C8: one child with active box `(0,0)-(100,100)`, cached;
the cache is reused at `(50,50)` and cleared at `(200,200)`. -/
theorem claim_C8_witness :
    [Vui.Rect.mk 0 0 100 100].get? 0 = some (Vui.Rect.mk 0 0 100 100) ∧
    (Vui.Rect.mk 0 0 100 100).containsPt 50 50 = true ∧
    Vui.findChildPane [Vui.Rect.mk 0 0 100 100] (some 0) 50 50 = some 0 ∧
    (∀ b ∈ [Vui.Rect.mk 0 0 100 100], b.containsPt 200 200 = false) ∧
    (Vui.observeMousePos [Vui.Rect.mk 0 0 100 100] (some 0)
      (some (200, 200))).1 = none := by
  have hg : [Vui.Rect.mk 0 0 100 100].get? 0 =
      some (Vui.Rect.mk 0 0 100 100) := rfl
  have hc : (Vui.Rect.mk 0 0 100 100).containsPt 50 50 = true := by
    norm_num [Vui.Rect.containsPt]
  have hout : ∀ b ∈ [Vui.Rect.mk 0 0 100 100], b.containsPt 200 200 = false := by
    intro b hb
    rcases List.mem_singleton.mp hb with rfl
    norm_num [Vui.Rect.containsPt]
  exact ⟨hg, hc,
    claim_C8_pointer_cache_amended.1 [Vui.Rect.mk 0 0 100 100] 0
      (Vui.Rect.mk 0 0 100 100) 50 50 hg hc,
    hout,
    claim_C8_pointer_cache_amended.2.2.2.2.1 [Vui.Rect.mk 0 0 100 100]
      (some 0) 200 200 hout⟩

theorem Vui.stackRun_capture (boxes : List Vui.Rect) :
    ∀ (evs : List Vui.MouseEvent) (s : Vui.DragState) (p btn : ℕ),
      s.dragging = some p → s.draggingButton = btn →
      (∀ e ∈ evs, ∀ (x y : ℚ) (b : ℕ),
        e = .release x y b → b &&& btn = 0) →
      (Vui.stackRun boxes s evs).dragging = some p ∧
      (Vui.stackRun boxes s evs).draggingButton = btn ∧
      ∀ d ∈ Vui.stackDragDeliveries boxes s evs, d = some p
  | [], s, p, btn, hd, hb, _ =>
    ⟨hd, hb, by simp [Vui.stackDragDeliveries]⟩
  | e :: evs, s, p, btn, hd, hb, hr => by
    have hr' : ∀ e' ∈ evs, ∀ (x y : ℚ) (b : ℕ),
        e' = .release x y b → b &&& btn = 0 :=
      fun e' he' => hr e' (List.mem_cons_of_mem _ he')
    have hrun : Vui.stackRun boxes s (e :: evs) =
        Vui.stackRun boxes (Vui.stackStep boxes s e).1 evs := rfl
    cases e with
    | press x y b =>
      have hstep : (Vui.stackStep boxes s (.press x y b)).1 = s := rfl
      have ih := Vui.stackRun_capture boxes evs s p btn hd hb hr'
      refine ⟨by rw [hrun, hstep]; exact ih.1,
        by rw [hrun, hstep]; exact ih.2.1, ?_⟩
      intro d hdel
      simp only [Vui.stackDragDeliveries, hstep, List.nil_append] at hdel
      exact ih.2.2 d hdel
    | drag x y bs =>
      have hnd : ¬ s.dragging = none := by rw [hd]; simp
      have hstep : (Vui.stackStep boxes s (.drag x y bs)).1 = s := by
        simp [Vui.stackStep, hnd]
      have hdel2 : (Vui.stackStep boxes s (.drag x y bs)).2 = some p := by
        simp [Vui.stackStep, hnd, hd]
      have ih := Vui.stackRun_capture boxes evs s p btn hd hb hr'
      refine ⟨by rw [hrun, hstep]; exact ih.1,
        by rw [hrun, hstep]; exact ih.2.1, ?_⟩
      intro d hdel
      simp only [Vui.stackDragDeliveries, hstep, hdel2,
        List.singleton_append, List.mem_cons] at hdel
      rcases hdel with rfl | hdel
      · rfl
      · exact ih.2.2 d hdel
    | release x y b =>
      have hz : b &&& btn = 0 := hr _ (List.mem_cons_self _ _) x y b rfl
      have hcond : ¬ (b &&& s.draggingButton ≠ 0) := by
        rw [hb, hz]
        simp
      have hstep : (Vui.stackStep boxes s (.release x y b)).1 = s := by
        simp [Vui.stackStep, hcond]
      have ih := Vui.stackRun_capture boxes evs s p btn hd hb hr'
      refine ⟨by rw [hrun, hstep]; exact ih.1,
        by rw [hrun, hstep]; exact ih.2.1, ?_⟩
      intro d hdel
      simp only [Vui.stackDragDeliveries, hstep, List.nil_append] at hdel
      exact ih.2.2 d hdel
    | motion pos =>
      have hstep : (Vui.stackStep boxes s (.motion pos)).1 =
          { s with mouseover :=
              (Vui.observeMousePos boxes s.mouseover pos).1 } := rfl
      have hd' : (Vui.stackStep boxes s (.motion pos)).1.dragging = some p := by
        rw [hstep]; exact hd
      have hb' : (Vui.stackStep boxes s (.motion pos)).1.draggingButton = btn := by
        rw [hstep]; exact hb
      have ih := Vui.stackRun_capture boxes evs _ p btn hd' hb' hr'
      refine ⟨by rw [hrun]; exact ih.1, by rw [hrun]; exact ih.2.1, ?_⟩
      intro d hdel
      simp only [Vui.stackDragDeliveries, List.nil_append] at hdel
      exact ih.2.2 d hdel

/-- C9 counterexample: two children with active boxes `(0,0)-(100,100)` and
`(100,0)-(200,100)`; the child under the pointer at press time `(50,50)` is
child 0, but the press establishes no capture (the drag state is unchanged),
and the following drag at `(150,50)` is captured by and delivered to
child 1, not child 0. -/
theorem claim_C9_press_capture_counterexample :
    Vui.findChildPane [Vui.Rect.mk 0 0 100 100, Vui.Rect.mk 100 0 200 100]
      none 50 50 = some 0 ∧
    (Vui.stackStep [Vui.Rect.mk 0 0 100 100, Vui.Rect.mk 100 0 200 100]
      ⟨none, none, 0⟩ (.press 50 50 1)).1 =
      (⟨none, none, 0⟩ : Vui.DragState) ∧
    (Vui.stackStep [Vui.Rect.mk 0 0 100 100, Vui.Rect.mk 100 0 200 100]
      ⟨none, none, 0⟩ (.drag 150 50 1)).2 = some 1 ∧
    some (1 : ℕ) ≠ some 0 := by
  refine ⟨?_, rfl, ?_, by decide⟩
  · norm_num [Vui.findChildPane, Vui.scanChildren, Vui.Rect.containsPt]
  · norm_num [Vui.stackStep, Vui.findChildPane, Vui.scanChildren,
      Vui.Rect.containsPt]

/-- C9 (amended): capture is established at the first drag event, not at
press time: when no capture is active, a drag event records its button
mask and captures the child found under that drag's pointer position, and
that child receives the drag; while a capture on child `p` is active, any
sequence of events containing no release whose button mask intersects the
recorded mask leaves the capture on `p` and delivers every drag event in
it to `p`; a release whose button mask intersects the recorded mask clears
the capture. -/
theorem claim_C9_drag_capture_amended :
    (∀ (boxes : List Vui.Rect) (s : Vui.DragState) (x y : ℚ) (buttons : ℕ),
      s.dragging = none →
      (Vui.stackStep boxes s (.drag x y buttons)).1.dragging =
        Vui.findChildPane boxes s.mouseover x y ∧
      (Vui.stackStep boxes s (.drag x y buttons)).1.draggingButton =
        buttons ∧
      (Vui.stackStep boxes s (.drag x y buttons)).2 =
        Vui.findChildPane boxes s.mouseover x y) ∧
    (∀ (boxes : List Vui.Rect) (s : Vui.DragState) (p : ℕ)
        (evs : List Vui.MouseEvent),
      s.dragging = some p →
      (∀ e ∈ evs, ∀ (x y : ℚ) (b : ℕ),
        e = .release x y b → b &&& s.draggingButton = 0) →
      (Vui.stackRun boxes s evs).dragging = some p ∧
      ∀ d ∈ Vui.stackDragDeliveries boxes s evs, d = some p) ∧
    (∀ (boxes : List Vui.Rect) (s : Vui.DragState) (x y : ℚ) (b : ℕ),
      b &&& s.draggingButton ≠ 0 →
      (Vui.stackStep boxes s (.release x y b)).1.dragging = none) := by
  refine ⟨?_, ?_, ?_⟩
  · intro boxes s x y buttons hd
    refine ⟨?_, ?_, ?_⟩ <;> simp [Vui.stackStep, hd]
  · intro boxes s p evs hd hr
    have h := Vui.stackRun_capture boxes evs s p s.draggingButton hd rfl hr
    exact ⟨h.1, h.2.2⟩
  · intro boxes s x y b hb
    simp [Vui.stackStep, hb]

/-- Witness for C9 (amended): with capture on child 0 and recorded mask 1,
a drag at `(150,50)` keeps the capture on child 0 and is delivered to it;
a release with button 1 clears the capture; and from an uncaptured state a
drag captures the child found under its pointer. -/
theorem claim_C9_witness :
    ((⟨none, some 0, 1⟩ : Vui.DragState).dragging = some 0) ∧
    (Vui.stackRun [Vui.Rect.mk 0 0 100 100, Vui.Rect.mk 100 0 200 100]
      ⟨none, some 0, 1⟩ [.drag 150 50 1]).dragging = some 0 ∧
    (∀ d ∈ Vui.stackDragDeliveries
      [Vui.Rect.mk 0 0 100 100, Vui.Rect.mk 100 0 200 100]
      ⟨none, some 0, 1⟩ [.drag 150 50 1], d = some 0) ∧
    ((1 : ℕ) &&& (⟨none, some 0, 1⟩ : Vui.DragState).draggingButton ≠ 0) ∧
    (Vui.stackStep [Vui.Rect.mk 0 0 100 100, Vui.Rect.mk 100 0 200 100]
      ⟨none, some 0, 1⟩ (.release 150 50 1)).1.dragging = none ∧
    ((⟨none, none, 0⟩ : Vui.DragState).dragging = none) ∧
    (Vui.stackStep [Vui.Rect.mk 0 0 100 100, Vui.Rect.mk 100 0 200 100]
      ⟨none, none, 0⟩ (.drag 150 50 1)).1.dragging =
      Vui.findChildPane [Vui.Rect.mk 0 0 100 100, Vui.Rect.mk 100 0 200 100]
        none 150 50 := by
  have hnorel : ∀ e ∈ ([.drag 150 50 1] : List Vui.MouseEvent),
      ∀ (x y : ℚ) (b : ℕ), e = .release x y b →
        b &&& (⟨none, some 0, 1⟩ : Vui.DragState).draggingButton = 0 := by
    intro e he x y b heq
    rcases List.mem_singleton.mp he with rfl
    simp at heq
  have hii := claim_C9_drag_capture_amended.2.1
    [Vui.Rect.mk 0 0 100 100, Vui.Rect.mk 100 0 200 100]
    ⟨none, some 0, 1⟩ 0 [.drag 150 50 1] rfl hnorel
  have hiii := claim_C9_drag_capture_amended.2.2
    [Vui.Rect.mk 0 0 100 100, Vui.Rect.mk 100 0 200 100]
    ⟨none, some 0, 1⟩ 150 50 1 (by decide)
  have hi := claim_C9_drag_capture_amended.1
    [Vui.Rect.mk 0 0 100 100, Vui.Rect.mk 100 0 200 100]
    ⟨none, none, 0⟩ 150 50 1 rfl
  exact ⟨rfl, hii.1, hii.2, by decide, hiii, rfl, hi.1⟩
